import Mathlib

/-!
Shallow embedding of the citation-crawler core of `src/init.py`
(Google Scholar citation scraper and network visualizer).

Python strings are modelled as Lean `String` (operated on through their
`List Char` data), Python `None` as `Option.none`, dictionaries of the
fixed record shapes used by the program as Lean structures, and the
Selenium document interface as explicit page structures.  A call to
`find_element` raises `NoSuchElementException` when the selector does not
match; this is modelled by `Except` with error `Err.noSuchElement`.
-/

deriving instance DecidableEq for Except

namespace CPN

/-! ## Character and string helpers (Python semantics) -/

/-- Python regex word character (ASCII model of `\w`): alphanumeric or underscore. -/
def isWordChar (c : Char) : Bool := c.isAlphanum || c = '_'

/-- Python whitespace as stripped by `str.strip()` (ASCII model). -/
def isSpaceChar (c : Char) : Bool :=
  c = ' ' || c = '\t' || c = '\n' || c = '\r' || c = Char.ofNat 11 || c = Char.ofNat 12

/-- Tests whether the first list is a prefix of the second (on booleans, executable). -/
def isPrefixList : List Char → List Char → Bool
  | [], _ => true
  | _ :: _, [] => false
  | a :: s, b :: t => a = b && isPrefixList s t

/-- Python substring containment, `needle in hay`. -/
def containsSub (hay needle : List Char) : Bool :=
  if isPrefixList needle hay then true
  else match hay with
    | [] => false
    | _ :: t => containsSub t needle

/-- String wrapper for Python `sub in s`. -/
def strContains (s sub : String) : Bool := containsSub s.data sub.data

/-- One splitting pass of Python `re.split(r"\W-\W", meta)`: scan left to right,
cutting at every non-overlapping occurrence of (non-word char, hyphen, non-word char). -/
def splitWAux (acc : List Char) : List Char → List (List Char)
  | a :: b :: c :: rest =>
    if !isWordChar a && b = '-' && !isWordChar c then
      acc.reverse :: splitWAux [] rest
    else
      splitWAux (a :: acc) (b :: c :: rest)
  | l => [acc.reverse ++ l]

/-- Python `re.split(r"\W-\W", meta)`. -/
def splitW (l : List Char) : List (List Char) := splitWAux [] l

/-- Python `str.strip()`. -/
def pyStrip (l : List Char) : List Char :=
  ((l.dropWhile isSpaceChar).reverse.dropWhile isSpaceChar).reverse

/-- Python `s.split(",")[-1]`: the suffix after the last comma (the whole
string when no comma occurs). -/
def lastCommaField (l : List Char) : List Char :=
  ((l.reverse.takeWhile (fun c => c ≠ ','))).reverse

/-- Embeds `parse_meta` of `src/init.py`: split the citation line on the regex
`\W-\W`; part 0 is authors, part 1 (when the split produced at least two
parts) is source; year is the stripped text after the last comma of source
when source contains a comma, else source itself; with fewer than two parts
source and year are null.  Returns (authors, source, year). -/
def parse_meta (meta : String) : String × Option String × Option String :=
  match splitW meta.data with
  | p0 :: p1 :: _ =>
    let year := if containsSub p1 [','] then pyStrip (lastCommaField p1) else p1
    (String.mk p0, some (String.mk p1), some (String.mk year))
  | [p0] => (String.mk p0, none, none)
  | [] => (meta, none, none)

/-! ## URL query parsing (`urlparse` / `parse_qs` as used by `get_cluster_id`) -/

/-- The query component of a url: the text after the first `?` and before the
following `#`; empty when there is no `?` or when `#` comes first. -/
def queryPart : List Char → List Char
  | [] => []
  | '#' :: _ => []
  | '?' :: t => t.takeWhile (fun c => c ≠ '#')
  | _ :: t => queryPart t

/-- Splits a list on a separator character. -/
def splitOnCharAux (sep : Char) (acc : List Char) : List Char → List (List Char)
  | [] => [acc.reverse]
  | x :: t =>
    if x = sep then acc.reverse :: splitOnCharAux sep [] t
    else splitOnCharAux sep (x :: acc) t

/-- Splits a list on a separator character (wrapper starting with an empty accumulator). -/
def splitOnChar (sep : Char) (l : List Char) : List (List Char) := splitOnCharAux sep [] l

/-- One `k=v` field of a query string: yields the value when the field has the
requested key and a non-empty value (`parse_qs` drops blank values by default). -/
def fieldValue (param : List Char) (f : List Char) : Option String :=
  if containsSub f ['='] then
    let k := f.takeWhile (fun c => c ≠ '=')
    let v := (f.dropWhile (fun c => c ≠ '=')).tail
    if k = param ∧ v ≠ [] then some (String.mk v) else none
  else none

/-- Python `parse_qs(urlparse(url).query).get(param, [])` followed by taking the
first value: the first `&`-separated field of the query with key `param` and a
non-empty value. -/
def qsGet (url : String) (param : String) : Option String :=
  (splitOnChar '&' (queryPart url.data)).findSome? (fieldValue param.data)

/-- Embeds `get_cluster_id` of `src/init.py`: the first value of the `cluster`
query parameter, else of the `cites` parameter, else null. -/
def get_cluster_id (url : String) : Option String :=
  match qsGet url "cluster" with
  | some v => some v
  | none => qsGet url "cites"

/-! ## Result entries and id / metadata extraction -/

/-- A rendered anchor element: its text and its `href` attribute. -/
structure Link where
  text : String
  href : String
deriving DecidableEq, Repr

/-- A rendered result entry (one `.gs_r` block): its `.gs_fl a` action links,
its optional `.gs_rt a` title link, the text of its `.gs_a` citation line when
that element exists (absence makes `find_element` raise), and its `data-cid`
attribute. -/
structure Entry where
  fl_links : List Link
  rt_link : Option Link
  gs_a : Option String
  data_cid : Option String
deriving DecidableEq, Repr

/-- The loop body of `get_id`: the first `.gs_fl` link whose text contains
"Cited by" or "versions" short-circuits the loop with the cluster id of its
href; when no link matches, fall back to the entry's `data-cid` attribute. -/
def get_idLoop (dcid : Option String) : List Link → Option String
  | [] => dcid
  | a :: rest =>
    if strContains a.text "Cited by" || strContains a.text "versions" then
      get_cluster_id a.href
    else get_idLoop dcid rest

/-- Embeds `get_id` of `src/init.py`. -/
def get_id (e : Entry) : Option String := get_idLoop e.data_cid e.fl_links

/-- Whether a link's text selects it in the `get_id` loop. -/
def idLinkMatches (a : Link) : Bool :=
  strContains a.text "Cited by" || strContains a.text "versions"

end CPN

namespace CPN

/-! ## Publication records (the dictionaries built by `get_metadata` and the
parent record of `get_citations`) -/

/-- The `from_pub` dictionary returned by `get_metadata`: `id` is guarded
non-null before the record is returned; `authors` is `meta_parts[0]`, always a
string; the remaining fields may be `None`. -/
structure Pub where
  id : String
  url : Option String
  title : Option String
  authors : String
  year : Option String
  cited_by : Option Nat
  cited_by_url : Option String
deriving DecidableEq, Repr

/-- The `to_pub` dictionary of `get_citations`: `id` is `get_cluster_id(url)`
and may be null; `title` is the header link's text, always a string. -/
structure ToPub where
  id : Option String
  title : String
deriving DecidableEq, Repr

/-! ## Uncaught Python exceptions -/

/-- Uncaught Python exceptions the program can raise:
`NoSuchElementException` from an unguarded `find_element`, the
`AttributeError` from `re.search(...).group(1)` when the search fails, and
the `ValueError("None cannot be a node")` that `nx.DiGraph.add_node` /
`add_edge` raise when asked to create the node `None` (networkx ≥ 2.0,
forced here by the `modularity_max` import). -/
inductive Err where
  | noSuchElement
  | attributeError
  | valueError
deriving DecidableEq, Repr

/-! ## Graph builder (`nx.DiGraph` as used by `main`) -/

/-- Node keys of the citation graph: `from_pub['id']` is a string but
`to_pub['id']` may be `None`, so a node key is an optional string. -/
abbrev NodeKey := Option String

/-- The attribute dictionary stored on a graph node.  `none` means the key is
absent — except for `label`, which `main` passes on every `add_node` call
(outside `remove_nones`) and whose stored value may therefore be Python `None`,
modelled as `none`. -/
structure NodeData where
  label : Option String := none
  idAttr : Option String := none
  url : Option String := none
  title : Option String := none
  authors : Option String := none
  year : Option String := none
  cited_by : Option Nat := none
  cited_by_url : Option String := none
  modularity : Option Nat := none
deriving DecidableEq, Repr

/-- A directed graph: insertion-ordered association list of nodes and a
duplicate-free insertion-ordered edge list, as in `nx.DiGraph`. -/
structure Graph where
  nodes : List (NodeKey × NodeData)
  edges : List (NodeKey × NodeKey)
deriving DecidableEq, Repr

/-- The empty graph `nx.DiGraph()`. -/
def emptyGraph : Graph := { nodes := [], edges := [] }

/-- Looks up the attribute dictionary of a node. -/
def Graph.getNode (g : Graph) (k : NodeKey) : Option NodeData :=
  (g.nodes.find? (fun p => p.1 = k)).map (fun p => p.2)

/-- Replaces the attribute dictionary stored at an existing key. -/
def Graph.setNode (g : Graph) (k : NodeKey) (d : NodeData) : Graph :=
  { g with nodes := g.nodes.map (fun p => if p.1 = k then (k, d) else p) }

/-- The attribute update performed by
`g.add_node(from_pub['id'], label=from_pub['title'], **remove_nones(from_pub))`:
the kwargs dict holds `label` unconditionally (its value may be `None`) and
every non-`None` field of `from_pub`; `dict.update` overwrites exactly the
keys present in the kwargs. -/
def mergeFrom (old : NodeData) (p : Pub) : NodeData :=
  { old with
    label := p.title
    idAttr := some p.id
    url := p.url <|> old.url
    title := p.title <|> old.title
    authors := some p.authors
    year := p.year <|> old.year
    cited_by := p.cited_by <|> old.cited_by
    cited_by_url := p.cited_by_url <|> old.cited_by_url }

/-- The attribute update performed by
`g.add_node(to_pub['id'], label=to_pub['title'], **remove_nones(to_pub))`:
the kwargs dict holds `label` and `title` (the header text, a string) and
`id` when non-null; no other key is touched. -/
def mergeTo (old : NodeData) (t : ToPub) : NodeData :=
  { old with
    label := some t.title
    idAttr := t.id <|> old.idAttr
    title := some t.title }

/-- Embeds `add_node` for a `from_pub` record: create the node when the key is
unseen, else update its attribute dictionary.  The key `from_pub['id']` is a
non-null string (guarded in `get_metadata`), so the None check of
`nx.DiGraph.add_node` can never fire on this path and the call never raises. -/
def addNodeFrom (g : Graph) (p : Pub) : Graph :=
  let k : NodeKey := some p.id
  match g.getNode k with
  | some old => g.setNode k (mergeFrom old p)
  | none => { g with nodes := g.nodes ++ [(k, mergeFrom {} p)] }

/-- Embeds `add_node` for a `to_pub` record, whose key `to_pub['id']` may be
`None`.  As in networkx, an existing node is updated without any check, and a
node to be created is first checked: creating the node `None` raises
`ValueError("None cannot be a node")` (and since no node is ever created as
`None`, the update branch can only see non-null keys). -/
def addNodeTo (g : Graph) (t : ToPub) : Except Err Graph :=
  match g.getNode t.id with
  | some old => .ok (g.setNode t.id (mergeTo old t))
  | none =>
    if t.id = none then .error .valueError
    else .ok { g with nodes := g.nodes ++ [(t.id, mergeTo {} t)] }

/-- Embeds `g.add_edge(u, v)` on a `DiGraph`: each absent endpoint is created
bare, raising `ValueError("None cannot be a node")` when it is `None`;
duplicate edge insertions are no-ops. -/
def addEdge (g : Graph) (u v : NodeKey) : Except Err Graph :=
  match
    (if (g.getNode u).isSome then .ok g
     else if u = none then .error Err.valueError
     else .ok { g with nodes := g.nodes ++ [(u, {})] } : Except Err Graph) with
  | .error er => .error er
  | .ok g1 =>
    match
      (if (g1.getNode v).isSome then .ok g1
       else if v = none then .error Err.valueError
       else .ok { g1 with nodes := g1.nodes ++ [(v, {})] } : Except Err Graph) with
    | .error er => .error er
    | .ok g2 =>
      .ok (if (u, v) ∈ g2.edges then g2 else { g2 with edges := g2.edges ++ [(u, v)] })

/-- The graph-building loop of `main`: for every yielded pair, add the citing
node; when `to_pub` is a dict (always truthy, even with a null id), add the
cited node and the edge.  A `ValueError` raised by either networkx call is
uncaught and aborts `main`. -/
def buildGraph (pairs : List (Pub × Option ToPub)) : Except Err Graph :=
  pairs.foldl
    (fun acc fp_tp =>
      match acc with
      | .error er => .error er
      | .ok g =>
        let g := addNodeFrom g fp_tp.1
        match fp_tp.2 with
        | some t =>
          match addNodeTo g t with
          | .error er => .error er
          | .ok g2 => addEdge g2 (some fp_tp.1.id) t.id
        | none => .ok g)
    (.ok emptyGraph)

/-! ## Output writer -/

/-- Embeds `write_output` of `src/init.py` as the list of files it writes: the
function contains no guard on the node count and unconditionally writes the
gexf file, the graphml file and the fixed-name `graph.json`. -/
def write_output (g : Graph) (output : String) : List String :=
  let _ := g
  [output ++ ".gexf", output ++ ".graphml", "graph.json"]

end CPN

namespace CPN

/-! ## Number extraction for the citation count -/

/-- The digits of a maximal leading digit run, as a number, with `none` when
the first character is not a digit. -/
def leadingNatAux (acc : Nat) : List Char → Nat
  | c :: t => if c.isDigit then leadingNatAux (acc * 10 + (c.toNat - 48)) t else acc
  | [] => acc

/-- Python `re.search(r"Cited by (\d+)", text)`: the number at the first
occurrence of "Cited by " followed by at least one digit; `none` when the
pattern never matches. -/
def searchCitedBy : List Char → Option Nat
  | [] => none
  | l@(_ :: t) =>
    if isPrefixList "Cited by ".data l then
      match l.drop 9 with
      | d :: _ =>
        if d.isDigit then some (leadingNatAux 0 ((l.drop 9).takeWhile Char.isDigit))
        else searchCitedBy t
      | [] => searchCitedBy t
    else searchCitedBy t

/-- The `Cited by` loop of `get_metadata`: every `.gs_fl` link whose text
contains "Cited by" overwrites `cited_by`/`cited_by_url` (the last such link
wins); a link containing "Cited by" whose text does not match the regex makes
`.group(1)` raise `AttributeError`. -/
def citedByLoop (acc : Option Nat × Option String) : List Link → Except Err (Option Nat × Option String)
  | [] => .ok acc
  | a :: rest =>
    if strContains a.text "Cited by" then
      match searchCitedBy a.text.data with
      | some n => citedByLoop (some n, some ("https://scholar.google.com" ++ a.href)) rest
      | none => .error .attributeError
    else citedByLoop acc rest

/-- Embeds `get_metadata` of `src/init.py`: null when the entry has no
resolvable id; otherwise title and url from the optional `.gs_rt a` link
(absence caught), the citation line from `.gs_a` (absence raises), authors and
year from `parse_meta`, and the citation count and url from the link loop. -/
def get_metadata (e : Entry) : Except Err (Option Pub) :=
  match get_id e with
  | none => .ok none
  | some article_id =>
    let tu : Option String × Option String :=
      match e.rt_link with
      | some a => (some a.text, some a.href)
      | none => (none, none)
    match e.gs_a with
    | none => .error .noSuchElement
    | some meta =>
      let aw := parse_meta meta
      match citedByLoop (none, none) e.fl_links with
      | .error er => .error er
      | .ok cb =>
        .ok (some
          { id := article_id
            url := tu.2
            title := tu.1
            authors := aw.1
            year := aw.2.2
            cited_by := cb.1
            cited_by_url := cb.2 })

/-! ## Pages and the crawl orchestrator -/

/-- A rendered Scholar result page: the optional `#gs_res_ccl_top a` header
link (absence makes the unguarded `find_element` on line 64 raise), the
`#gs_res_ccl_mid .gs_r` result entries, and the optional `#gs_n a` pagination
link (that `find_element` is wrapped in try/except). -/
structure Page where
  header_link : Option Link
  entries : List Entry
  next_link : Option Link
deriving Repr

/-- The fetch capability: what `get_html` returns for each url.  The random
politeness delay and the interactive CAPTCHA wait have no effect on the
returned document and are not modelled. -/
abbrev Web := String → Page

/-- A yielded pair `(from_pub, to_pub)`. -/
abbrev Pair := Pub × Option ToPub

mutual

/-- Embeds `get_citations` of `src/init.py`: the visited-set guard, the parent
record `to_pub` (the header `find_element` raises when the header link is
absent; an element is never falsy, so on success `to_pub` is always a dict),
the entry loop, and the pagination step (`pages > 1`, a `#gs_n a` link whose
text is "Next", recursion with the same depth and `pages - 1`).  The generator
is modelled as returning the produced pairs together with the final visited
set; an uncaught exception aborts the whole crawl, modelled by `Except`. -/
def get_citations (web : Web) (depth pages : Nat) (url : String) (seen : List String) :
    Except Err (List Pair × List String) :=
  if url ∈ seen then .ok ([], seen)
  else
    let seen1 := url :: seen
    let html := web url
    match html.header_link with
    | none => .error .noSuchElement
    | some a =>
      let to_pub : Option ToPub := some { id := get_cluster_id url, title := a.text }
      match entryLoop web depth pages to_pub html.entries seen1 with
      | .error er => .error er
      | .ok prsSeen =>
        if _h : 1 < pages then
          match html.next_link with
          | none => .ok prsSeen
          | some nl =>
            if nl.text = "Next" then
              match get_citations web depth (pages - 1)
                  ("https://scholar.google.com" ++ nl.href) prsSeen.2 with
              | .error er => .error er
              | .ok prsSeen2 => .ok (prsSeen.1 ++ prsSeen2.1, prsSeen2.2)
            else .ok prsSeen
        else .ok prsSeen
termination_by (depth, pages, 1, 0)

/-- The `for e in ...` entry loop of `get_citations`: extract each entry's
metadata, yield `(from_pub, to_pub)` for entries with a record, and when
`depth > 0` and the record carries a cited-by url (a value that is either null
or a non-empty string starting with the Scholar origin, hence truthy exactly
when present), splice in the recursion with `depth - 1` and the same `pages`
before the remaining sibling entries. -/
def entryLoop (web : Web) (depth pages : Nat) (to_pub : Option ToPub)
    (es : List Entry) (seen : List String) :
    Except Err (List Pair × List String) :=
  match es with
  | [] => .ok ([], seen)
  | e :: rest =>
    match get_metadata e with
    | .error er => .error er
    | .ok none => entryLoop web depth pages to_pub rest seen
    | .ok (some fp) =>
      if _h : 0 < depth then
        match fp.cited_by_url with
        | some cu =>
          match get_citations web (depth - 1) pages cu seen with
          | .error er => .error er
          | .ok prsSeen =>
            match entryLoop web depth pages to_pub rest prsSeen.2 with
            | .error er => .error er
            | .ok prsSeen2 => .ok ((fp, to_pub) :: (prsSeen.1 ++ prsSeen2.1), prsSeen2.2)
        | none =>
          match entryLoop web depth pages to_pub rest seen with
          | .error er => .error er
          | .ok prsSeen => .ok ((fp, to_pub) :: prsSeen.1, prsSeen.2)
      else
        match entryLoop web depth pages to_pub rest seen with
        | .error er => .error er
        | .ok prsSeen => .ok ((fp, to_pub) :: prsSeen.1, prsSeen.2)
termination_by (depth, pages, 0, es.length)

end

end CPN

namespace CPN

/-! ## Community detection (`cluster_nodes`) -/

/-- Whether an unordered edge is already present. -/
def hasUEdge (es : List (NodeKey × NodeKey)) (e : NodeKey × NodeKey) : Bool :=
  es.any (fun f => (f.1 = e.1 && f.2 = e.2) || (f.1 = e.2 && f.2 = e.1))

/-- The undirected projection `nx.Graph(g)`: direction ignored, parallel
edges merged. -/
def undirectedEdges (g : Graph) : List (NodeKey × NodeKey) :=
  g.edges.foldl (fun es e => if hasUEdge es e then es else es ++ [e]) []

/-- Degree of a node in the undirected projection. -/
def degreeOf (es : List (NodeKey × NodeKey)) (v : NodeKey) : Nat :=
  (es.filter (fun e => e.1 = v)).length + (es.filter (fun e => e.2 = v)).length

/-- Number of edges internal to a community. -/
def intraCount (es : List (NodeKey × NodeKey)) (c : List NodeKey) : Nat :=
  (es.filter (fun e => decide (e.1 ∈ c) && decide (e.2 ∈ c))).length

/-- Total degree of a community. -/
def degSum (es : List (NodeKey × NodeKey)) (c : List NodeKey) : Nat :=
  (c.map (degreeOf es)).sum

/-- A community's contribution to modularity, scaled by 4·m² to stay in the
integers: 4·m·(internal edges) − (degree sum)². -/
def commScore (es : List (NodeKey × NodeKey)) (m : Nat) (c : List NodeKey) : Int :=
  4 * (m : Int) * (intraCount es c : Int) - (degSum es c : Int) ^ 2

/-- The scaled modularity increase obtained by merging two communities. -/
def deltaQ (es : List (NodeKey × NodeKey)) (m : Nat) (c1 c2 : List NodeKey) : Int :=
  commScore es m (c1 ++ c2) - commScore es m c1 - commScore es m c2

/-- All unordered pairs of elements of a list, in order. -/
def allPairs : List α → List (α × α)
  | [] => []
  | x :: t => t.map (fun y => (x, y)) ++ allPairs t

/-- The pair of communities whose merge maximises the modularity increase
(first such pair in scan order on ties). -/
def bestMerge (es : List (NodeKey × NodeKey)) (m : Nat) (P : List (List NodeKey)) :
    Option (List NodeKey × List NodeKey × Int) :=
  (allPairs P).foldl
    (fun best pr =>
      let dq := deltaQ es m pr.1 pr.2
      match best with
      | none => some (pr.1, pr.2, dq)
      | some b => if dq > b.2.2 then some (pr.1, pr.2, dq) else best)
    none

/-- Replaces the first community by the union and drops the second. -/
def mergeComms (P : List (List NodeKey)) (c1 c2 : List NodeKey) : List (List NodeKey) :=
  (P.map (fun c => if c = c1 then c1 ++ c2 else c)).filter (fun c => c ≠ c2)

/-- Greedy agglomeration: while the best merge strictly increases modularity,
perform it.  The step count only bounds the recursion; each step removes one
community, so a budget of the initial community count always suffices. -/
def greedySteps (es : List (NodeKey × NodeKey)) (m : Nat) :
    Nat → List (List NodeKey) → List (List NodeKey)
  | 0, P => P
  | n + 1, P =>
    match bestMerge es m P with
    | some b => if b.2.2 > 0 then greedySteps es m n (mergeComms P b.1 b.2.1) else P
    | none => P

/-- Modelled from the spec: `greedy_modularity_communities` is a call into the
networkx library, whose code is not part of this repository; §4.5 of the spec
describes it as greedy modularity maximisation over the undirected projection,
starting from singleton communities and repeatedly merging the pair of
communities with the largest modularity increase until no merge increases the
objective. -/
def greedy_modularity_communities (g : Graph) : List (List NodeKey) :=
  let es := undirectedEdges g
  let P0 := g.nodes.map (fun p => [p.1])
  greedySteps es es.length P0.length P0

/-- Stores a community index in a node's `modularity` attribute. -/
def setModularity (g : Graph) (k : NodeKey) (i : Nat) : Graph :=
  { g with
    nodes := g.nodes.map (fun p => if p.1 = k then (p.1, { p.2 with modularity := some i }) else p) }

/-- Embeds `cluster_nodes` of `src/init.py`: for every community (enumerated
in order) and every node in it, set the node's `modularity` attribute to the
community's index. -/
def cluster_nodes (g : Graph) : Graph :=
  (greedy_modularity_communities g).enum.foldl
    (fun g ic => ic.2.foldl (fun g v => setModularity g v ic.1) g) g

/-! ## The whole pipeline of `main` -/

/-- The pipeline of `main` after argument parsing: crawl, build the graph from
the yielded pairs, cluster, write output.  An uncaught exception aborts the
process before anything is written. -/
def runPipeline (web : Web) (url : String) (depth pages : Nat) (output : String) :
    Except Err (Graph × List String) :=
  match get_citations web depth pages url [] with
  | .error er => .error er
  | .ok prsSeen =>
    match buildGraph prsSeen.1 with
    | .error er => .error er
    | .ok g0 =>
      let g := cluster_nodes g0
      .ok (g, write_output g output)

/-- Process exit code: 0 when `main` runs to completion, 1 when an uncaught
exception terminates the interpreter. -/
def exitCode (r : Except Err (Graph × List String)) : Nat :=
  match r with
  | .ok _ => 0
  | .error _ => 1

end CPN

namespace CPN

/-! ## A fuel-indexed twin of the crawl, for computing concrete runs

`get_citations` is defined by well-founded recursion and does not reduce
inside the kernel; the following pair of structurally recursive functions
computes the same result when given enough fuel, which `crawlF_sound` proves. -/

mutual

/-- Fuel-indexed version of `get_citations`; `none` means the fuel ran out. -/
def crawlF (web : Web) : Nat → Nat → Nat → String → List String →
    Option (Except Err (List Pair × List String))
  | 0, _, _, _, _ => none
  | fuel + 1, depth, pages, url, seen =>
    if url ∈ seen then some (.ok ([], seen))
    else
      let seen1 := url :: seen
      let html := web url
      match html.header_link with
      | none => some (.error .noSuchElement)
      | some a =>
        let to_pub : Option ToPub := some { id := get_cluster_id url, title := a.text }
        match entryLoopF web fuel depth pages to_pub html.entries seen1 with
        | none => none
        | some (.error er) => some (.error er)
        | some (.ok prsSeen) =>
          if 1 < pages then
            match html.next_link with
            | none => some (.ok prsSeen)
            | some nl =>
              if nl.text = "Next" then
                match crawlF web fuel depth (pages - 1)
                    ("https://scholar.google.com" ++ nl.href) prsSeen.2 with
                | none => none
                | some (.error er) => some (.error er)
                | some (.ok prsSeen2) => some (.ok (prsSeen.1 ++ prsSeen2.1, prsSeen2.2))
              else some (.ok prsSeen)
          else some (.ok prsSeen)

/-- Fuel-indexed version of `entryLoop`. -/
def entryLoopF (web : Web) : Nat → Nat → Nat → Option ToPub → List Entry → List String →
    Option (Except Err (List Pair × List String))
  | 0, _, _, _, _, _ => none
  | fuel + 1, depth, pages, to_pub, es, seen =>
    match es with
    | [] => some (.ok ([], seen))
    | e :: rest =>
      match get_metadata e with
      | .error er => some (.error er)
      | .ok none => entryLoopF web fuel depth pages to_pub rest seen
      | .ok (some fp) =>
        if 0 < depth then
          match fp.cited_by_url with
          | some cu =>
            match crawlF web fuel (depth - 1) pages cu seen with
            | none => none
            | some (.error er) => some (.error er)
            | some (.ok prsSeen) =>
              match entryLoopF web fuel depth pages to_pub rest prsSeen.2 with
              | none => none
              | some (.error er) => some (.error er)
              | some (.ok prsSeen2) =>
                some (.ok ((fp, to_pub) :: (prsSeen.1 ++ prsSeen2.1), prsSeen2.2))
          | none =>
            match entryLoopF web fuel depth pages to_pub rest seen with
            | none => none
            | some (.error er) => some (.error er)
            | some (.ok prsSeen) => some (.ok ((fp, to_pub) :: prsSeen.1, prsSeen.2))
        else
          match entryLoopF web fuel depth pages to_pub rest seen with
          | none => none
          | some (.error er) => some (.error er)
          | some (.ok prsSeen) => some (.ok ((fp, to_pub) :: prsSeen.1, prsSeen.2))

end

end CPN

namespace CPN

theorem crawlF_entryLoopF_sound (web : Web) :
    ∀ fuel,
      (∀ depth pages url seen r, crawlF web fuel depth pages url seen = some r →
        get_citations web depth pages url seen = r) ∧
      (∀ depth pages to_pub es seen r, entryLoopF web fuel depth pages to_pub es seen = some r →
        entryLoop web depth pages to_pub es seen = r) := by
  intro fuel
  induction fuel with
  | zero =>
    constructor
    · intro _ _ _ _ _ h; simp [crawlF] at h
    · intro _ _ _ _ _ _ h; simp [entryLoopF] at h
  | succ n ih =>
    constructor
    · intro depth pages url seen r h
      rw [get_citations]
      rw [crawlF] at h
      by_cases hs : url ∈ seen
      · rw [if_pos hs] at h
        rw [if_pos hs]
        exact Option.some.inj h
      · rw [if_neg hs] at h
        rw [if_neg hs]
        dsimp only at h ⊢
        cases hh : (web url).header_link with
        | none =>
          rw [hh] at h
          dsimp only at h ⊢
          exact Option.some.inj h
        | some a =>
          rw [hh] at h
          dsimp only at h ⊢
          cases hel : entryLoopF web n depth pages
              (some { id := get_cluster_id url, title := a.text }) (web url).entries (url :: seen) with
          | none => rw [hel] at h; simp at h
          | some res =>
            have hel2 := ih.2 _ _ _ _ _ _ hel
            rw [hel] at h
            rw [hel2]
            cases res with
            | error er =>
              dsimp only at h ⊢
              exact Option.some.inj h
            | ok prsSeen =>
              dsimp only at h ⊢
              by_cases hp : 1 < pages
              · rw [if_pos hp] at h
                rw [dif_pos hp]
                cases hn : (web url).next_link with
                | none =>
                  rw [hn] at h
                  dsimp only at h ⊢
                  exact Option.some.inj h
                | some nl =>
                  rw [hn] at h
                  dsimp only at h ⊢
                  by_cases ht : nl.text = "Next"
                  · rw [if_pos ht] at h
                    rw [if_pos ht]
                    cases hc : crawlF web n depth (pages - 1)
                        ("https://scholar.google.com" ++ nl.href) prsSeen.2 with
                    | none => rw [hc] at h; simp at h
                    | some res2 =>
                      have hc2 := ih.1 _ _ _ _ _ hc
                      rw [hc] at h
                      rw [hc2]
                      cases res2 with
                      | error er =>
                        dsimp only at h ⊢
                        exact Option.some.inj h
                      | ok ps2 =>
                        dsimp only at h ⊢
                        exact Option.some.inj h
                  · rw [if_neg ht] at h
                    rw [if_neg ht]
                    exact Option.some.inj h
              · rw [if_neg hp] at h
                rw [dif_neg hp]
                exact Option.some.inj h
    · intro depth pages to_pub es seen r h
      rw [entryLoop.eq_def]
      rw [entryLoopF.eq_def] at h
      dsimp only at h
      cases es with
      | nil =>
        dsimp only at h ⊢
        exact Option.some.inj h
      | cons e rest =>
        dsimp only at h ⊢
        cases hm : get_metadata e with
        | error er =>
          rw [hm] at h
          dsimp only at h ⊢
          exact Option.some.inj h
        | ok o =>
          rw [hm] at h
          cases o with
          | none =>
            dsimp only at h ⊢
            exact ih.2 depth pages to_pub rest seen r h
          | some fp =>
            dsimp only at h ⊢
            by_cases hd : 0 < depth
            · rw [if_pos hd] at h
              rw [dif_pos hd]
              cases hcb : fp.cited_by_url with
              | some cu =>
                rw [hcb] at h
                dsimp only at h ⊢
                cases hc : crawlF web n (depth - 1) pages cu seen with
                | none => rw [hc] at h; simp at h
                | some res =>
                  have hc2 := ih.1 _ _ _ _ _ hc
                  rw [hc] at h
                  rw [hc2]
                  cases res with
                  | error er =>
                    dsimp only at h ⊢
                    exact Option.some.inj h
                  | ok prsSeen =>
                    dsimp only at h ⊢
                    cases hel : entryLoopF web n depth pages to_pub rest prsSeen.2 with
                    | none => rw [hel] at h; simp at h
                    | some res2 =>
                      have hel2 := ih.2 _ _ _ _ _ _ hel
                      rw [hel] at h
                      rw [hel2]
                      cases res2 with
                      | error er =>
                        dsimp only at h ⊢
                        exact Option.some.inj h
                      | ok ps2 =>
                        dsimp only at h ⊢
                        exact Option.some.inj h
              | none =>
                rw [hcb] at h
                dsimp only at h ⊢
                cases hel : entryLoopF web n depth pages to_pub rest seen with
                | none => rw [hel] at h; simp at h
                | some res2 =>
                  have hel2 := ih.2 _ _ _ _ _ _ hel
                  rw [hel] at h
                  rw [hel2]
                  cases res2 with
                  | error er =>
                    dsimp only at h ⊢
                    exact Option.some.inj h
                  | ok ps2 =>
                    dsimp only at h ⊢
                    exact Option.some.inj h
            · rw [if_neg hd] at h
              rw [dif_neg hd]
              cases hel : entryLoopF web n depth pages to_pub rest seen with
              | none => rw [hel] at h; simp at h
              | some res2 =>
                have hel2 := ih.2 _ _ _ _ _ _ hel
                rw [hel] at h
                rw [hel2]
                cases res2 with
                | error er =>
                  dsimp only at h ⊢
                  exact Option.some.inj h
                | ok ps2 =>
                  dsimp only at h ⊢
                  exact Option.some.inj h

end CPN
namespace CPN

/-- The crawl only ever adds to the visited set: both mutual functions return
a final visited set that contains the one they were given. -/
theorem crawl_seen_mono (web : Web) :
    (∀ (depth pages : Nat) (url : String) (seen : List String),
      ∀ r, get_citations web depth pages url seen = .ok r → seen ⊆ r.2) ∧
    (∀ (depth pages : Nat) (to_pub : Option ToPub) (es : List Entry) (seen : List String),
      ∀ r, entryLoop web depth pages to_pub es seen = .ok r → seen ⊆ r.2) := by
  refine get_citations.mutual_induct web
    (fun depth pages url seen => ∀ r, get_citations web depth pages url seen = .ok r → seen ⊆ r.2)
    (fun depth pages to_pub es seen => ∀ r, entryLoop web depth pages to_pub es seen = .ok r → seen ⊆ r.2)
    ?_ ?_ ?_ ?_ ?_ ?_ ?_ ?_ ?_ ?_ ?_ ?_ ?_ ?_ ?_ ?_ ?_ ?_
  · -- url already visited
    intro d p url seen hs r hr
    rw [get_citations] at hr
    rw [if_pos hs] at hr
    injection hr with hr
    rw [← hr]
    exact fun x hx => hx
  · -- header link absent: the call errors
    intro d p url seen hs
    dsimp only
    intro hh r hr
    rw [get_citations] at hr
    rw [if_neg hs] at hr
    dsimp only at hr
    rw [hh] at hr
    simp at hr
  · -- entry loop errors
    intro d p url seen hs
    dsimp only
    intro nl hh er hel _ r hr
    rw [get_citations] at hr
    rw [if_neg hs] at hr
    dsimp only at hr
    rw [hh] at hr
    dsimp only at hr
    rw [hel] at hr
    simp at hr
  · -- entry loop ok, pages > 1, no next link
    intro d p url seen hs
    dsimp only
    intro nl hh ps hel hp hn ih r hr
    rw [get_citations] at hr
    rw [if_neg hs] at hr
    dsimp only at hr
    rw [hh] at hr
    dsimp only at hr
    rw [hel] at hr
    dsimp only at hr
    rw [dif_pos hp] at hr
    rw [hn] at hr
    dsimp only at hr
    injection hr with hr
    rw [← hr]
    exact fun x hx => ih ps hel (List.mem_cons_of_mem _ hx)
  · -- pagination recursion errors
    intro d p url seen hs
    dsimp only
    intro nl hh ps hel hp nl2 hn ht er hc _ _ r hr
    rw [get_citations] at hr
    rw [if_neg hs] at hr
    dsimp only at hr
    rw [hh] at hr
    dsimp only at hr
    rw [hel] at hr
    dsimp only at hr
    rw [dif_pos hp] at hr
    rw [hn] at hr
    dsimp only at hr
    rw [if_pos ht] at hr
    rw [hc] at hr
    simp at hr
  · -- pagination recursion succeeds
    intro d p url seen hs
    dsimp only
    intro nl hh ps hel hp nl2 hn ht ps2 hc ih ihrec r hr
    rw [get_citations] at hr
    rw [if_neg hs] at hr
    dsimp only at hr
    rw [hh] at hr
    dsimp only at hr
    rw [hel] at hr
    dsimp only at hr
    rw [dif_pos hp] at hr
    rw [hn] at hr
    dsimp only at hr
    rw [if_pos ht] at hr
    rw [hc] at hr
    dsimp only at hr
    injection hr with hr
    rw [← hr]
    exact fun x hx => ihrec ps2 hc (ih ps hel (List.mem_cons_of_mem _ hx))
  · -- next link present but its text is not "Next"
    intro d p url seen hs
    dsimp only
    intro nl hh ps hel hp nl2 hn ht ih r hr
    rw [get_citations] at hr
    rw [if_neg hs] at hr
    dsimp only at hr
    rw [hh] at hr
    dsimp only at hr
    rw [hel] at hr
    dsimp only at hr
    rw [dif_pos hp] at hr
    rw [hn] at hr
    dsimp only at hr
    rw [if_neg ht] at hr
    injection hr with hr
    rw [← hr]
    exact fun x hx => ih ps hel (List.mem_cons_of_mem _ hx)
  · -- pages ≤ 1: no pagination
    intro d p url seen hs
    dsimp only
    intro nl hh ps hel hp ih r hr
    rw [get_citations] at hr
    rw [if_neg hs] at hr
    dsimp only at hr
    rw [hh] at hr
    dsimp only at hr
    rw [hel] at hr
    dsimp only at hr
    rw [dif_neg hp] at hr
    injection hr with hr
    rw [← hr]
    exact fun x hx => ih ps hel (List.mem_cons_of_mem _ hx)
  · -- no entries left
    intro d p tp seen r hr
    rw [entryLoop.eq_def] at hr
    dsimp only at hr
    injection hr with hr
    rw [← hr]
    exact fun x hx => hx
  · -- metadata extraction errors
    intro d p tp seen e rest er hm r hr
    rw [entryLoop.eq_def] at hr
    dsimp only at hr
    rw [hm] at hr
    simp at hr
  · -- entry dropped (no id)
    intro d p tp seen e rest hm ih r hr
    rw [entryLoop.eq_def] at hr
    dsimp only at hr
    rw [hm] at hr
    dsimp only at hr
    exact ih r hr
  · -- citation recursion errors
    intro d p tp seen e rest fp hm hd v hcb er hc _ r hr
    rw [entryLoop.eq_def] at hr
    dsimp only at hr
    rw [hm] at hr
    dsimp only at hr
    rw [dif_pos hd] at hr
    rw [hcb] at hr
    dsimp only at hr
    rw [hc] at hr
    simp at hr
  · -- citation recursion ok, remaining entries error
    intro d p tp seen e rest fp hm hd v hcb ps hc er hel _ _ r hr
    rw [entryLoop.eq_def] at hr
    dsimp only at hr
    rw [hm] at hr
    dsimp only at hr
    rw [dif_pos hd] at hr
    rw [hcb] at hr
    dsimp only at hr
    rw [hc] at hr
    dsimp only at hr
    rw [hel] at hr
    simp at hr
  · -- citation recursion ok, remaining entries ok
    intro d p tp seen e rest fp hm hd v hcb ps hc ps2 hel ihrec ih r hr
    rw [entryLoop.eq_def] at hr
    dsimp only at hr
    rw [hm] at hr
    dsimp only at hr
    rw [dif_pos hd] at hr
    rw [hcb] at hr
    dsimp only at hr
    rw [hc] at hr
    dsimp only at hr
    rw [hel] at hr
    dsimp only at hr
    injection hr with hr
    rw [← hr]
    exact fun x hx => ih ps2 hel (ihrec ps hc hx)
  · -- no cited-by url, remaining entries error
    intro d p tp seen e rest fp hm hd hcb er hel _ r hr
    rw [entryLoop.eq_def] at hr
    dsimp only at hr
    rw [hm] at hr
    dsimp only at hr
    rw [dif_pos hd] at hr
    rw [hcb] at hr
    dsimp only at hr
    rw [hel] at hr
    simp at hr
  · -- no cited-by url, remaining entries ok
    intro d p tp seen e rest fp hm hd hcb ps hel ih r hr
    rw [entryLoop.eq_def] at hr
    dsimp only at hr
    rw [hm] at hr
    dsimp only at hr
    rw [dif_pos hd] at hr
    rw [hcb] at hr
    dsimp only at hr
    rw [hel] at hr
    dsimp only at hr
    injection hr with hr
    rw [← hr]
    exact fun x hx => ih ps hel hx
  · -- depth exhausted, remaining entries error
    intro d p tp seen e rest fp hm hd er hel _ r hr
    rw [entryLoop.eq_def] at hr
    dsimp only at hr
    rw [hm] at hr
    dsimp only at hr
    rw [dif_neg hd] at hr
    rw [hel] at hr
    simp at hr
  · -- depth exhausted, remaining entries ok
    intro d p tp seen e rest fp hm hd ps hel ih r hr
    rw [entryLoop.eq_def] at hr
    dsimp only at hr
    rw [hm] at hr
    dsimp only at hr
    rw [dif_neg hd] at hr
    rw [hel] at hr
    dsimp only at hr
    injection hr with hr
    rw [← hr]
    exact fun x hx => ih ps hel hx

end CPN
namespace CPN

/-- Transfers a concrete fuel-twin run to `get_citations` (used to evaluate
the crawl on concrete webs). -/
theorem crawl_eval {web : Web} (fuel : Nat) {depth pages : Nat} {url : String}
    {seen : List String} {r : Except Err (List Pair × List String)}
    (h : crawlF web fuel depth pages url seen = some r) :
    get_citations web depth pages url seen = r :=
  (crawlF_entryLoopF_sound web fuel).1 depth pages url seen r h

/-- C8: invoking the traversal on an already-visited url performs no fetch,
produces no pairs and leaves the visited set unchanged; a url not yet visited
is marked before its page is processed and is in the final visited set of
every successful run. -/
theorem visited_guard_spec :
    (∀ (web : Web) (depth pages : Nat) (url : String) (seen : List String),
      url ∈ seen → get_citations web depth pages url seen = .ok ([], seen)) ∧
    (∀ (web : Web) (depth pages : Nat) (url : String) (seen : List String)
      (r : List Pair × List String),
      url ∉ seen → get_citations web depth pages url seen = .ok r → url ∈ r.2) := by
  constructor
  · intro web d p url seen hs
    rw [get_citations]
    rw [if_pos hs]
  · intro web d p url seen r hs hr
    rw [get_citations] at hr
    rw [if_neg hs] at hr
    dsimp only at hr
    cases hh : (web url).header_link with
    | none => rw [hh] at hr; simp at hr
    | some a =>
      rw [hh] at hr
      dsimp only at hr
      cases hel : entryLoop web d p (some { id := get_cluster_id url, title := a.text })
          (web url).entries (url :: seen) with
      | error er => rw [hel] at hr; simp at hr
      | ok res =>
        have hmem : url ∈ res.2 :=
          (crawl_seen_mono web).2 d p _ _ _ res hel (List.mem_cons_self _ _)
        rw [hel] at hr
        dsimp only at hr
        by_cases hp : 1 < p
        · rw [dif_pos hp] at hr
          cases hn : (web url).next_link with
          | none =>
            rw [hn] at hr
            dsimp only at hr
            injection hr with hr
            subst hr
            exact hmem
          | some nl =>
            rw [hn] at hr
            dsimp only at hr
            by_cases ht : nl.text = "Next"
            · rw [if_pos ht] at hr
              cases hc : get_citations web d (p - 1) ("https://scholar.google.com" ++ nl.href) res.2 with
              | error er => rw [hc] at hr; simp at hr
              | ok res2 =>
                have hmem2 : url ∈ res2.2 := (crawl_seen_mono web).1 d (p - 1) _ _ res2 hc hmem
                rw [hc] at hr
                dsimp only at hr
                injection hr with hr
                subst hr
                exact hmem2
            · rw [if_neg ht] at hr
              injection hr with hr
              subst hr
              exact hmem
        · rw [dif_neg hp] at hr
          injection hr with hr
          subst hr
          exact hmem

end CPN
namespace CPN

/-- Collects the pairs of the entries of a single page, with no recursive
expansion — the processing the spec prescribes for exhausted depth. -/
def entriesOnly (to_pub : Option ToPub) : List Entry → Except Err (List Pair)
  | [] => .ok []
  | e :: rest =>
    match get_metadata e with
    | .error er => .error er
    | .ok none => entriesOnly to_pub rest
    | .ok (some fp) =>
      match entriesOnly to_pub rest with
      | .error er => .error er
      | .ok prs => .ok ((fp, to_pub) :: prs)

/-- The spec's description of a depth-0 crawl: only entries on the initial
page(s) produce pairs — pagination still applies, but no expansion through any
cited-by url occurs. -/
def crawlDepthZero (web : Web) (pages : Nat) (url : String) (seen : List String) :
    Except Err (List Pair × List String) :=
  if url ∈ seen then .ok ([], seen)
  else
    let seen1 := url :: seen
    match (web url).header_link with
    | none => .error .noSuchElement
    | some a =>
      let to_pub : Option ToPub := some { id := get_cluster_id url, title := a.text }
      match entriesOnly to_pub (web url).entries with
      | .error er => .error er
      | .ok prs =>
        if _h : 1 < pages then
          match (web url).next_link with
          | none => .ok (prs, seen1)
          | some nl =>
            if nl.text = "Next" then
              match crawlDepthZero web (pages - 1) ("https://scholar.google.com" ++ nl.href) seen1 with
              | .error er => .error er
              | .ok prsSeen2 => .ok (prs ++ prsSeen2.1, prsSeen2.2)
            else .ok (prs, seen1)
        else .ok (prs, seen1)
termination_by pages

/-- At depth 0 the entry loop is exactly the per-page collection: it never
recurses and never touches the visited set. -/
theorem entryLoop_zero (web : Web) (pages : Nat) (to_pub : Option ToPub) :
    ∀ (es : List Entry) (seen : List String),
      entryLoop web 0 pages to_pub es seen =
        (entriesOnly to_pub es).map (fun prs => (prs, seen)) := by
  intro es
  induction es with
  | nil => intro seen; rw [entryLoop.eq_def]; simp [entriesOnly, Except.map]
  | cons e rest ih =>
    intro seen
    rw [entryLoop.eq_def]
    dsimp only
    cases hm : get_metadata e with
    | error er => simp [entriesOnly, hm, Except.map]
    | ok o =>
      cases o with
      | none => simp [entriesOnly, hm, ih seen]
      | some fp =>
        rw [entriesOnly]
        rw [hm]
        dsimp only
        rw [dif_neg (by omega : ¬ (0:Nat) < 0)]
        rw [ih seen]
        cases hre : entriesOnly to_pub rest with
        | error er => rfl
        | ok prs => rfl

/-- A depth-0 crawl equals the spec's pagination-only crawl. -/
theorem crawl_depth_zero (web : Web) :
    ∀ (pages : Nat) (url : String) (seen : List String),
      get_citations web 0 pages url seen = crawlDepthZero web pages url seen := by
  intro pages
  induction pages using Nat.strong_induction_on with
  | _ pages ih =>
    intro url seen
    rw [get_citations, crawlDepthZero]
    by_cases hs : url ∈ seen
    · rw [if_pos hs, if_pos hs]
    · rw [if_neg hs, if_neg hs]
      dsimp only
      cases hh : (web url).header_link with
      | none => rfl
      | some a =>
        dsimp only
        rw [entryLoop_zero]
        cases he : entriesOnly (some { id := get_cluster_id url, title := a.text })
            (web url).entries with
        | error er => rfl
        | ok prs =>
          dsimp only [Except.map]
          by_cases hp : 1 < pages
          · rw [dif_pos hp, dif_pos hp]
            cases hn : (web url).next_link with
            | none => rfl
            | some nl =>
              dsimp only
              by_cases ht : nl.text = "Next"
              · rw [if_pos ht, if_pos ht]
                rw [ih (pages - 1) (by omega)]
              · rw [if_neg ht, if_neg ht]
          · rw [dif_neg hp, dif_neg hp]

/-- Unfolding of a positive-depth crawl on a single-entry page with a
cited-by url and no pagination link: the recursive call receives depth − 1 and
the same pages value, and its pairs are spliced after the entry's own pair. -/
theorem get_citations_succ_unfold (web : Web) (d pages : Nat) (url : String) (seen : List String)
    (a : Link) (e : Entry) (fp : Pub) (cu : String)
    (hs : url ∉ seen) (hh : (web url).header_link = some a) (he : (web url).entries = [e])
    (hn : (web url).next_link = none)
    (hm : get_metadata e = .ok (some fp)) (hcb : fp.cited_by_url = some cu) :
    get_citations web (d + 1) pages url seen =
      (get_citations web d pages cu (url :: seen)).map
        (fun prsSeen =>
          ((fp, some { id := get_cluster_id url, title := a.text }) :: prsSeen.1, prsSeen.2)) := by
  rw [get_citations]
  rw [if_neg hs]
  dsimp only
  rw [hh]
  dsimp only
  rw [he]
  rw [entryLoop.eq_def]
  dsimp only
  rw [hm]
  dsimp only
  rw [dif_pos (Nat.succ_pos d)]
  rw [hcb]
  dsimp only
  rw [Nat.add_sub_cancel]
  cases hc : get_citations web d pages cu (url :: seen) with
  | error er => rfl
  | ok ps =>
    dsimp only
    rw [entryLoop.eq_def]
    dsimp only
    by_cases hp : 1 < pages
    · rw [dif_pos hp]
      rw [hn]
      dsimp only [Except.map]
      simp
    · rw [dif_neg hp]
      dsimp only [Except.map]
      simp

end CPN
namespace CPN

/-! ## Concrete fixtures used by witnesses and concrete runs -/

/-- A result entry whose "Cited by" link carries a `cites` parameter. -/
def entryA : Entry :=
  { fl_links := [{ text := "Cited by 3", href := "/scholar?cites=201" }],
    rt_link := some { text := "Paper A", href := "http://a" },
    gs_a := some "A. Doe - Nature, 2020", data_cid := none }

/-- The record `get_metadata` extracts from `entryA`. -/
def pubA : Pub :=
  { id := "201", url := some "http://a", title := some "Paper A", authors := "A. Doe",
    year := some "2020", cited_by := some 3,
    cited_by_url := some "https://scholar.google.com/scholar?cites=201" }

/-- An entry with no citation links, identified by its `data-cid`. -/
def entryB : Entry :=
  { fl_links := [], rt_link := none, gs_a := some "B. Roe - Science, 2021",
    data_cid := some "777" }

/-- The record `get_metadata` extracts from `entryB`. -/
def pubB : Pub :=
  { id := "777", url := none, title := none, authors := "B. Roe",
    year := some "2021", cited_by := none, cited_by_url := none }

def pageA : Page :=
  { header_link := some { text := "Root", href := "h" }, entries := [entryA],
    next_link := none }

def pageB : Page :=
  { header_link := some { text := "Paper A", href := "h2" }, entries := [entryB],
    next_link := none }

/-- A page with a header but no result entries. -/
def blankPage : Page :=
  { header_link := some { text := "x", href := "y" }, entries := [], next_link := none }

/-- A two-level web: the start page's single entry has a cited-by url leading
to a second page. -/
def webAB : Web := fun u =>
  if u = "u1" then pageA
  else if u = "https://scholar.google.com/scholar?cites=201" then pageB
  else blankPage

/-- A web whose every page has a header and no entries. -/
def webEmpty : Web := fun _ => blankPage

/-- A web whose pages have no `#gs_res_ccl_top a` header link. -/
def webNoHeader : Web := fun _ =>
  { header_link := none, entries := [], next_link := none }

/-- An entry with a resolvable id but no `.gs_a` citation line. -/
def entryNoGsA : Entry :=
  { fl_links := [], rt_link := none, gs_a := none, data_cid := some "5" }

/-- A web whose page contains an entry lacking the `.gs_a` citation line. -/
def webNoGsA : Web := fun _ =>
  { header_link := some { text := "R", href := "h" }, entries := [entryNoGsA],
    next_link := none }

/-- Entries shown on the three paginated result pages. -/
def entryP (cid : String) : Entry :=
  { fl_links := [], rt_link := none, gs_a := some "X - Y, 2000", data_cid := some cid }

/-- The record extracted from `entryP cid`. -/
def pubP (cid : String) : Pub :=
  { id := cid, url := none, title := none, authors := "X",
    year := some "2000", cited_by := none, cited_by_url := none }

/-- A three-page web linked by "Next" pagination links on pages 1 and 2. -/
def web3 : Web := fun u =>
  if u = "p1" then
    { header_link := some { text := "Root", href := "h" }, entries := [entryP "n1"],
      next_link := some { text := "Next", href := "/scholar?start=10" } }
  else if u = "https://scholar.google.com/scholar?start=10" then
    { header_link := some { text := "Root", href := "h" }, entries := [entryP "n2"],
      next_link := some { text := "Next", href := "/scholar?start=20" } }
  else if u = "https://scholar.google.com/scholar?start=20" then
    { header_link := some { text := "Root", href := "h" }, entries := [entryP "n3"],
      next_link := none }
  else blankPage

/-- An entry that resolves its id from a "Cited by" link with `cluster=111`. -/
def entryC10 : Entry :=
  { fl_links := [{ text := "Cited by 7", href := "/scholar?cluster=111&hl=en" }],
    rt_link := some { text := "Paper", href := "http://p" },
    gs_a := some "J. Doe - Nature, 2020", data_cid := none }

/-- The record extracted from `entryC10`. -/
def pubC10 : Pub :=
  { id := "111", url := some "http://p", title := some "Paper", authors := "J. Doe",
    year := some "2020", cited_by := some 7,
    cited_by_url := some "https://scholar.google.com/scholar?cluster=111&hl=en" }

/-- A crawled citers-of view whose own url carries neither `cluster` nor
`cites`, but whose result-header link is present. -/
def webC10 : Web := fun _ =>
  { header_link := some { text := "Root Paper", href := "hr" }, entries := [entryC10],
    next_link := none }

/-- The start url of the `webC10` crawl: no `cluster`/`cites` parameter. -/
def urlC10 : String := "https://scholar.google.com/scholar?q=test"

/-- Two directed triangles with no cross edges, as a citation graph. -/
def triGraph : Graph :=
  { nodes := [(some "a1", {}), (some "a2", {}), (some "a3", {}),
              (some "b1", {}), (some "b2", {}), (some "b3", {})],
    edges := [(some "a1", some "a2"), (some "a2", some "a3"), (some "a3", some "a1"),
              (some "b1", some "b2"), (some "b2", some "b3"), (some "b3", some "b1")] }

/-- A record with a non-null title. -/
def pubT : Pub :=
  { id := "X1", url := none, title := some "T", authors := "A. Doe",
    year := some "2020", cited_by := none, cited_by_url := none }

/-- The same id seen again later, now with a null title. -/
def pubN : Pub :=
  { id := "X1", url := none, title := none, authors := "A. Doe",
    year := none, cited_by := none, cited_by_url := none }

/-- An entry exposing both a "Cited by" link (cluster=111) and a raw
`data-cid` attribute (222). -/
def entry111 : Entry :=
  { fl_links := [{ text := "Cited by 7",
                   href := "https://scholar.google.com/scholar?cluster=111" }],
    rt_link := none, gs_a := none, data_cid := some "222" }

/-- An entry with nothing that could resolve an id. -/
def entryNoId : Entry :=
  { fl_links := [], rt_link := none, gs_a := none, data_cid := none }

/-- Pages with no entries, chained by "Next" links. -/
def webN2 : Web := fun u =>
  if u = "q1" then
    { header_link := some { text := "R", href := "h" }, entries := [],
      next_link := some { text := "Next", href := "/s2" } }
  else blankPage

end CPN
namespace CPN

/-! ## Claim theorems -/

/-- Replacing the data at a key that `find?` locates makes `find?` return the
replacement. -/
theorem find_map_set (l : List (NodeKey × NodeData)) (k : NodeKey) (d : NodeData)
    (h : (l.find? (fun p => p.1 = k)).isSome) :
    ((l.map (fun p => if p.1 = k then (k, d) else p)).find? (fun p => p.1 = k)) = some (k, d) := by
  induction l with
  | nil => simp [List.find?] at h
  | cons a t ih =>
    rw [List.map_cons]
    by_cases hk : a.1 = k
    · rw [if_pos hk]
      exact List.find?_cons_of_pos _ (by simp)
    · rw [if_neg hk]
      rw [List.find?_cons_of_neg _ (by simp [hk])]
      apply ih
      rw [List.find?_cons_of_neg _ (by simp [hk])] at h
      exact h

/-- Calling `setNode` on an existing key stores exactly the new data. -/
theorem getNode_setNode_of_found (g : Graph) (k : NodeKey) (d : NodeData) (old : NodeData)
    (h : g.getNode k = some old) : (g.setNode k d).getNode k = some d := by
  have hf : (g.nodes.find? (fun p => p.1 = k)).isSome := by
    unfold Graph.getNode at h
    cases hq : g.nodes.find? (fun p => p.1 = k) with
    | none => rw [hq] at h; simp at h
    | some pr => simp [hq]
  unfold Graph.getNode Graph.setNode
  rw [find_map_set g.nodes k d hf]
  rfl

/-- C1, amended: on a repeated `add_node` for an existing id, every field that
`remove_nones` strips — url, title, authors, year, citation count and url —
never overwrites a stored value with null; but the `label` attribute, passed
outside `remove_nones`, is unconditionally overwritten with the incoming
record's title, null included. -/
theorem addNode_merge_amended (g : Graph) (p : Pub) (old : NodeData)
    (h : g.getNode (some p.id) = some old) :
    (addNodeFrom g p).getNode (some p.id) = some (mergeFrom old p)
  ∧ (p.url = none → (mergeFrom old p).url = old.url)
  ∧ (p.title = none → (mergeFrom old p).title = old.title)
  ∧ (p.year = none → (mergeFrom old p).year = old.year)
  ∧ (p.cited_by = none → (mergeFrom old p).cited_by = old.cited_by)
  ∧ (p.cited_by_url = none → (mergeFrom old p).cited_by_url = old.cited_by_url)
  ∧ (mergeFrom old p).authors = some p.authors
  ∧ (mergeFrom old p).label = p.title := by
  refine ⟨?_, ?_, ?_, ?_, ?_, ?_, rfl, rfl⟩
  · unfold addNodeFrom
    dsimp only
    rw [h]
    exact getNode_setNode_of_found g (some p.id) (mergeFrom old p) old h
  · intro hu; simp [mergeFrom, hu]
  · intro hu; simp [mergeFrom, hu]
  · intro hu; simp [mergeFrom, hu]
  · intro hu; simp [mergeFrom, hu]
  · intro hu; simp [mergeFrom, hu]

/-- Witness for the amended C1 theorem at a concrete repeated add. -/
theorem addNode_merge_amended_witness :
    (addNodeFrom (addNodeFrom emptyGraph pubT) pubN).getNode (some pubN.id)
      = some (mergeFrom (mergeFrom {} pubT) pubN) ∧
    (mergeFrom (mergeFrom {} pubT) pubN).year = (mergeFrom {} pubT).year :=
  ⟨(addNode_merge_amended (addNodeFrom emptyGraph pubT) pubN (mergeFrom {} pubT) (by decide)).1,
   (addNode_merge_amended (addNodeFrom emptyGraph pubT) pubN (mergeFrom {} pubT)
      (by decide)).2.2.2.1 rfl⟩

/-- C1, counterexample: adding id "X1" with title "T" stores label "T", but a
later add for the same id whose title is null overwrites the label with null —
while the stripped fields (here year) are preserved. -/
theorem addNode_label_counterexample :
    ((addNodeFrom emptyGraph pubT).getNode (some "X1")).map NodeData.label = some (some "T")
  ∧ ((addNodeFrom (addNodeFrom emptyGraph pubT) pubN).getNode (some "X1")).map NodeData.label
      = some none
  ∧ ((addNodeFrom (addNodeFrom emptyGraph pubT) pubN).getNode (some "X1")).map NodeData.year
      = some (some "2020") := by decide

/-- C2, counterexample: the zero-node graph still gets all three output files
written — `write_output` contains no guard. -/
theorem write_output_counterexample :
    emptyGraph.nodes = [] ∧
    write_output emptyGraph "graph" = ["graph.gexf", "graph.graphml", "graph.json"] ∧
    write_output emptyGraph "graph" ≠ [] := by decide

/-- C2, amended: `write_output` unconditionally writes the gexf, graphml and
json artifacts whatever the graph, zero-node graphs included, and a crawl
producing an empty graph still exits with code 0. -/
theorem write_output_amended :
    (∀ (g : Graph) (out : String),
      write_output g out = [out ++ ".gexf", out ++ ".graphml", "graph.json"]) ∧
    runPipeline webEmpty "u" 1 1 "graph" =
      .ok (emptyGraph, ["graph.gexf", "graph.graphml", "graph.json"]) ∧
    exitCode (runPipeline webEmpty "u" 1 1 "graph") = 0 := by
  have hc : get_citations webEmpty 1 1 "u" [] = .ok ([], ["u"]) := crawl_eval 5 (by decide)
  refine ⟨fun g out => rfl, ?_, ?_⟩
  · rw [runPipeline, hc]
    decide
  · rw [runPipeline, hc]
    decide

/-- C3: the two unguarded `find_element` calls abort the crawl when their
element is absent — a missing `#gs_res_ccl_top a` header makes `get_citations`
raise before yielding anything, and a missing `.gs_a` citation line makes
`get_metadata` (and with it the whole crawl) raise, instead of yielding null. -/
theorem absent_elements_raise :
    get_citations webNoHeader 1 1 "u" [] = .error .noSuchElement ∧
    get_citations webNoGsA 1 1 "u" [] = .error .noSuchElement ∧
    get_metadata entryNoGsA = .error .noSuchElement :=
  ⟨crawl_eval 5 (by decide), crawl_eval 5 (by decide), by decide⟩

/-- C4, counterexample: "A,-;B" contains no occurrence of the literal
separator " - " (space, hyphen, space), yet `parse_meta` splits it — the
split pattern is the regex `\W-\W` — giving year "B" instead of null. -/
theorem parse_meta_counterexample :
    parse_meta "A,-;B" = ("A", some "B", some "B") ∧
    strContains "A,-;B" " - " = false := by decide

/-- C4, amended: the citation line is split at every occurrence of
(non-word char, hyphen, non-word char) and the first two parts are kept:
part 0 is authors; part 1, when the split produced one, is source, with year
the stripped text after its last comma when it has one and the whole source
otherwise; with no match authors is the whole line and source and year are
null.  The spec's example behaves as stated. -/
theorem parse_meta_amended :
    (∀ meta : String, splitW meta.data = [meta.data] →
      parse_meta meta = (meta, none, none))
  ∧ (∀ (meta : String) (p0 p1 : List Char) (rest : List (List Char)),
      splitW meta.data = p0 :: p1 :: rest →
      parse_meta meta = (String.mk p0, some (String.mk p1),
        some (String.mk (if containsSub p1 [','] then pyStrip (lastCommaField p1) else p1))))
  ∧ parse_meta "J. Doe, A. Smith - Nature, 2020" =
      ("J. Doe, A. Smith", some "Nature, 2020", some "2020") := by
  refine ⟨?_, ?_, by decide⟩
  · intro meta hm
    rw [parse_meta, hm]
  · intro meta p0 p1 rest hm
    rw [parse_meta, hm]

/-- Witness for the amended C4 theorem: a line with no separator match keeps
the whole text as authors with a null year, and the example line splits. -/
theorem parse_meta_amended_witness :
    parse_meta "No separator here" = ("No separator here", none, none) ∧
    parse_meta "J. Doe, A. Smith - Nature, 2020" =
      ("J. Doe, A. Smith", some "Nature, 2020", some "2020") :=
  ⟨parse_meta_amended.1 "No separator here" (by decide), parse_meta_amended.2.2⟩

end CPN
namespace CPN

/-- The `get_id` link loop is a first-match scan: the first action link whose
text contains "Cited by" or "versions" decides the id (via its url's cluster
id, even a null one); only when no link matches is `data-cid` consulted. -/
theorem get_idLoop_find (ls : List Link) (d : Option String) :
    get_idLoop d ls =
      match ls.find? idLinkMatches with
      | some a => get_cluster_id a.href
      | none => d := by
  induction ls with
  | nil => rw [get_idLoop]; simp [List.find?]
  | cons a t ih =>
    cases hb : (strContains a.text "Cited by" || strContains a.text "versions") with
    | true =>
      rw [get_idLoop]
      rw [if_pos hb]
      rw [List.find?_cons_of_pos t (by simp [idLinkMatches, hb])]
    | false =>
      rw [get_idLoop]
      rw [if_neg (by simp [hb])]
      rw [List.find?_cons_of_neg t (by simp [idLinkMatches, hb])]
      exact ih

/-- C5: id resolution order — the first "Cited by"/"versions" link wins and
its url's `cluster` parameter is preferred to `cites`; with no such link the
raw `data-cid` attribute is used; an entry exposing both a cluster=111 link
and data-cid=222 resolves to "111"; an entry with neither resolves to null
and its record is dropped; a url with neither parameter yields a null id. -/
theorem id_resolution_spec :
    (∀ e : Entry, get_id e =
      match e.fl_links.find? idLinkMatches with
      | some a => get_cluster_id a.href
      | none => e.data_cid) ∧
    get_id entry111 = some "111" ∧
    get_metadata entryNoId = .ok none ∧
    get_cluster_id "https://scholar.google.com/scholar?cluster=12345" = some "12345" ∧
    get_cluster_id "https://scholar.google.com/scholar?cites=999&hl=en" = some "999" ∧
    get_cluster_id "https://scholar.google.com/scholar?q=x&hl=en" = none :=
  ⟨fun e => get_idLoop_find e.fl_links e.data_cid,
   by decide, by decide, by decide, by decide, by decide⟩

/-- C6: with depth 0 the crawl is exactly the pagination-only crawl — no
recursive expansion through any cited-by url; and at positive depth the
expansion of an entry's cited-by url runs with depth − 1 and the same pages
value, spliced right after the entry's own pair. -/
theorem depth_semantics :
    (∀ (web : Web) (pages : Nat) (url : String) (seen : List String),
      get_citations web 0 pages url seen = crawlDepthZero web pages url seen) ∧
    (∀ (web : Web) (d pages : Nat) (url : String) (seen : List String) (a : Link) (e : Entry)
      (fp : Pub) (cu : String),
      url ∉ seen → (web url).header_link = some a → (web url).entries = [e] →
      (web url).next_link = none → get_metadata e = .ok (some fp) → fp.cited_by_url = some cu →
      get_citations web (d + 1) pages url seen =
        (get_citations web d pages cu (url :: seen)).map
          (fun prsSeen =>
            ((fp, some { id := get_cluster_id url, title := a.text }) :: prsSeen.1, prsSeen.2))) :=
  ⟨fun web => crawl_depth_zero web,
   fun web d pages url seen a e fp cu hs hh he hn hm hcb =>
     get_citations_succ_unfold web d pages url seen a e fp cu hs hh he hn hm hcb⟩

/-- Witness for C6: the two-level concrete web, where the single entry of the
start page expands through its cited-by url at depth 0 with pages still 1. -/
theorem depth_semantics_witness :
    get_citations webAB (0 + 1) 1 "u1" [] =
      (get_citations webAB 0 1 "https://scholar.google.com/scholar?cites=201" ["u1"]).map
        (fun prsSeen =>
          ((pubA, some { id := get_cluster_id "u1", title := "Root" }) :: prsSeen.1,
           prsSeen.2)) :=
  depth_semantics.2 webAB 0 1 "u1" [] { text := "Root", href := "h" } entryA pubA
    "https://scholar.google.com/scholar?cites=201" (by decide) rfl rfl rfl (by decide) rfl

/-- C7: with pages = 1 no pagination occurs even when a next link is present;
with pages > 1 and a "Next" link, the crawl recurses into the next url with
the same depth and pages − 1, splicing its pairs after the current page's; on
the concrete three-page web with pages = 3 and depth 0, the entries of all
three pages appear, in page order, at the same citation level. -/
theorem pagination_semantics :
    (∀ (web : Web) (d : Nat) (url : String) (seen : List String) (a : Link),
      url ∉ seen → (web url).header_link = some a → (web url).entries = [] →
      get_citations web d 1 url seen = .ok ([], url :: seen)) ∧
    (∀ (web : Web) (d pages : Nat) (url : String) (seen : List String) (a nl : Link),
      url ∉ seen → (web url).header_link = some a → (web url).entries = [] →
      1 < pages → (web url).next_link = some nl → nl.text = "Next" →
      get_citations web d pages url seen =
        get_citations web d (pages - 1) ("https://scholar.google.com" ++ nl.href)
          (url :: seen)) ∧
    get_citations web3 0 3 "p1" [] =
      .ok ([(pubP "n1", some { id := none, title := "Root" }),
            (pubP "n2", some { id := none, title := "Root" }),
            (pubP "n3", some { id := none, title := "Root" })],
           ["https://scholar.google.com/scholar?start=20",
            "https://scholar.google.com/scholar?start=10", "p1"]) := by
  refine ⟨?_, ?_, crawl_eval 10 (by decide)⟩
  · intro web d url seen a hs hh he
    rw [get_citations]
    rw [if_neg hs]
    dsimp only
    rw [hh]
    dsimp only
    rw [he]
    rw [entryLoop.eq_def]
    dsimp only
    rw [dif_neg (by omega : ¬ (1:Nat) < 1)]
  · intro web d pages url seen a nl hs hh he hp hn ht
    rw [get_citations]
    rw [if_neg hs]
    dsimp only
    rw [hh]
    dsimp only
    rw [he]
    rw [entryLoop.eq_def]
    dsimp only
    rw [dif_pos hp]
    rw [hn]
    dsimp only
    rw [if_pos ht]
    cases hc : get_citations web d (pages - 1) ("https://scholar.google.com" ++ nl.href)
        (url :: seen) with
    | error er => rfl
    | ok ps => simp

/-- Witness for C7 at concrete webs: pages = 1 suppresses pagination even with
a "Next" link present, and pages = 3 recurses with the same depth, pages − 1. -/
theorem pagination_semantics_witness :
    get_citations webN2 7 1 "q1" [] = .ok ([], ["q1"]) ∧
    get_citations webN2 7 3 "q1" [] =
      get_citations webN2 7 2 "https://scholar.google.com/s2" ["q1"] :=
  ⟨pagination_semantics.1 webN2 7 "q1" [] { text := "R", href := "h" } (by decide) rfl rfl,
   pagination_semantics.2.1 webN2 7 3 "q1" [] { text := "R", href := "h" }
     { text := "Next", href := "/s2" } (by decide) rfl rfl (by omega) rfl rfl⟩

/-- Witness for C8: a visited url yields nothing and leaves the set unchanged,
and an unvisited url ends up in the final visited set. -/
theorem visited_guard_witness :
    get_citations webEmpty 1 1 "u" ["u"] = .ok ([], ["u"]) ∧ "u" ∈ (["u"] : List String) :=
  ⟨visited_guard_spec.1 webEmpty 1 1 "u" ["u"] (by decide),
   visited_guard_spec.2 webEmpty 1 1 "u" [] ([], ["u"]) (by decide) (crawl_eval 5 (by decide))⟩

/-- C9: on two disjoint directed triangles the detector returns exactly the
two triangles as communities, and `cluster_nodes` stores community index 0 on
every a-node and index 1 on every b-node — two distinct ids, one per
triangle, no node misassigned. -/
theorem two_triangles_communities :
    greedy_modularity_communities triGraph =
      [[some "a1", some "a2", some "a3"], [some "b1", some "b2", some "b3"]] ∧
    ((cluster_nodes triGraph).getNode (some "a1")).map NodeData.modularity = some (some 0) ∧
    ((cluster_nodes triGraph).getNode (some "a2")).map NodeData.modularity = some (some 0) ∧
    ((cluster_nodes triGraph).getNode (some "a3")).map NodeData.modularity = some (some 0) ∧
    ((cluster_nodes triGraph).getNode (some "b1")).map NodeData.modularity = some (some 1) ∧
    ((cluster_nodes triGraph).getNode (some "b2")).map NodeData.modularity = some (some 1) ∧
    ((cluster_nodes triGraph).getNode (some "b3")).map NodeData.modularity = some (some 1) := by
  decide

/-- C10, counterexample: on the very scenario the claim describes — a crawled
page whose url carries neither `cluster` nor `cites` but whose result-header
link is present — the pipeline aborts with the uncaught
`ValueError("None cannot be a node")` from `g.add_node(to_pub['id'], ...)`,
so no finished graph, no null-id node and no output exist, and the process
exits nonzero. -/
theorem null_id_node_counterexample :
    runPipeline webC10 urlC10 0 1 "graph" = .error .valueError ∧
    exitCode (runPipeline webC10 urlC10 0 1 "graph") = 1 := by
  have hc : get_citations webC10 0 1 urlC10 [] =
      .ok ([(pubC10, some { id := none, title := "Root Paper" })], [urlC10]) :=
    crawl_eval 5 (by decide)
  constructor
  · rw [runPipeline, hc]
    decide
  · rw [runPipeline, hc]
    decide

/-- C10, amended: crawling a page whose url carries neither `cluster` nor
`cites` but whose header link exists yields a non-null `to_pub` with a null
id; when `main` then adds that record, `nx.DiGraph.add_node` raises
`ValueError("None cannot be a node")`, uncaught, so the run crashes before any
graph or output is produced — a finished graph never contains a null node id. -/
theorem null_id_crash :
    get_cluster_id urlC10 = none ∧
    get_citations webC10 0 1 urlC10 [] =
      .ok ([(pubC10, some { id := none, title := "Root Paper" })], [urlC10]) ∧
    addNodeTo (addNodeFrom emptyGraph pubC10) { id := none, title := "Root Paper" }
      = .error .valueError ∧
    buildGraph [(pubC10, some { id := none, title := "Root Paper" })] = .error .valueError :=
  ⟨by decide, crawl_eval 5 (by decide), by decide, by decide⟩

end CPN
